import Mathlib

/-!
Shallow embedding of `aslam_cv/include/aslam/common/channel-serialization.h`.

Buffers and strings are modelled as `List Nat` of byte values; a nullable
`char*` is `Option (List Nat)` (`none` = null pointer).  C++ `int` arguments
are `Int`; `size_t` arithmetic is `Nat` reduced `% 2^64`; `uint32_t` fields
are `Nat` reduced `% 2^32`.  A failed glog `CHECK` aborts the process and is
modelled by the `CRes.fatal` result constructor (tagged with the check that
fired); an ordinary `return b` is `CRes.ok` carrying the returned boolean and
the observable output state.
-/

namespace aslam

namespace internal

/-- Result of a call: `ok` is a normal return (carrying the returned value and
output state), `fatal` models a failed glog `CHECK*` macro, which aborts and
never returns control. -/
inductive CRes (α : Type) where
  | ok (val : α)
  | fatal (msg : String)
deriving DecidableEq, Repr

/-- Whether a result is a fatal check failure. -/
def CRes.isFatal {α : Type} : CRes α → Bool
  | .ok _ => false
  | .fatal _ => true

/-- C++ conversion of an `int` value to `uint32_t` (reduction mod 2^32). -/
def toU32 (i : Int) : Nat := (i % 4294967296).toNat

/-- C++ conversion of an `int` value to `size_t` (reduction mod 2^64). -/
def toSizeT (i : Int) : Nat := (i % 18446744073709551616).toNat

/-- The header record: four `uint32_t` fields (rows, cols, depth, channels),
as in the C++ `HeaderInformation` struct. -/
structure HeaderInformation where
  rows : Nat
  cols : Nat
  depth : Nat
  channels : Nat
deriving DecidableEq, Repr

/-- Modelled from the spec: `HeaderInformation::size()` is implemented outside
this header.  The spec fixes it: the serialized header is four 4-byte fields,
so its constant byte size is 16. -/
def HeaderInformation.size (_h : HeaderInformation) : Nat := 16

/-- The four bytes of a `uint32_t` in host-native (little-endian) order. -/
def u32Bytes (n : Nat) : List Nat :=
  [n % 256, n / 256 % 256, n / 65536 % 256, n / 16777216 % 256]

/-- The 16 header bytes: rows, cols, depth, channels, in field order with no
padding (spec §6 wire format). -/
def headerBytes (h : HeaderInformation) : List Nat :=
  u32Bytes h.rows ++ u32Bytes h.cols ++ u32Bytes h.depth ++ u32Bytes h.channels

/-- `memcpy(dst + offset, src, src.length)` on a byte list. -/
def writeBytes (dst : List Nat) (offset : Nat) (src : List Nat) : List Nat :=
  dst.take offset ++ src ++ dst.drop (offset + src.length)

/-- Modelled from the spec: `HeaderInformation::serializeToBuffer(buffer,
offset)` is implemented outside this header.  Per the spec it writes the four
fields at `offset` in field order and fails (returns false) only when the
destination buffer is null. -/
def HeaderInformation.serializeToBuffer (h : HeaderInformation)
    (buffer : Option (List Nat)) (offset : Nat) : Option (List Nat) :=
  buffer.map (fun b => writeBytes b offset (headerBytes h))

/-- Reads 16 bytes at `offset` and rebuilds the four fields.  Reading past the
end of the buffer is undefined behaviour in the source and is modelled as a
parse failure. -/
def headerParseBytes (b : List Nat) (offset : Nat) : Option HeaderInformation :=
  match b.drop offset with
  | r0 :: r1 :: r2 :: r3 :: c0 :: c1 :: c2 :: c3 ::
    d0 :: d1 :: d2 :: d3 :: ch0 :: ch1 :: ch2 :: ch3 :: _ =>
    some ⟨r0 + 256 * r1 + 65536 * r2 + 16777216 * r3,
          c0 + 256 * c1 + 65536 * c2 + 16777216 * c3,
          d0 + 256 * d1 + 65536 * d2 + 16777216 * d3,
          ch0 + 256 * ch1 + 65536 * ch2 + 16777216 * ch3⟩
  | _ => none

/-- Modelled from the spec: `HeaderInformation::deSerializeFromBuffer(bufferIn,
offset)` is implemented outside this header.  Per the spec it reads the four
fields back from `offset` and fails if the buffer pointer is null; it does not
validate field values. -/
def HeaderInformation.deSerializeFromBuffer (buffer : Option (List Nat))
    (offset : Nat) : Option HeaderInformation :=
  buffer.bind (fun b => headerParseBytes b offset)

/-- `makeHeaderInformation<SCALAR>(rows, cols, channels, header)`: assigns the
`int` arguments to the `uint32_t` fields and the cv depth tag of `SCALAR`
(passed here as the value `depth`). -/
def makeHeaderInformation (depth : Nat) (rows cols channels : Int) :
    HeaderInformation :=
  ⟨toU32 rows, toU32 cols, depth, toU32 channels⟩

/-- `sizeof(SCALAR) * rows * cols * channels` in `size_t` arithmetic. -/
def rawMatrixSize (sz : Nat) (rows cols channels : Int) : Nat :=
  sz * toSizeT rows * toSizeT cols * toSizeT channels % 18446744073709551616

/-- `matrixSize + header.size()` in `size_t` arithmetic. -/
def rawTotalSize (sz : Nat) (rows cols channels : Int) : Nat :=
  (rawMatrixSize sz rows cols channels + 16) % 18446744073709551616

/-- `serializeToBuffer<SCALAR>(matrixData, rows, cols, channels, buffer,
totalSize)` (the raw-pointer, owned-buffer overload), parameterized by the
header writer `hw` (the member function is implemented outside this header;
`HeaderInformation.serializeToBuffer` is its spec model).  Returns the
returned boolean together with the output parameters `*buffer` and
`*totalSize`. -/
def serializeToBufferRawWith
    (hw : HeaderInformation → Option (List Nat) → Nat → Option (List Nat))
    (sz depth : Nat) (matrixData : List Nat) (rows cols channels : Int) :
    CRes (Bool × Option (List Nat) × Nat) :=
  let header := makeHeaderInformation depth rows cols channels
  let matrixSize := rawMatrixSize sz rows cols channels
  let totalSize := rawTotalSize sz rows cols channels
  let fresh := List.replicate totalSize 0
  match hw header (some fresh) 0 with
  | none => .ok (false, none, totalSize)
  | some b => .ok (true, some (writeBytes b 16 (matrixData.take matrixSize)), totalSize)

/-- The raw-pointer, owned-buffer `serializeToBuffer` with the concrete header
writer. -/
def serializeToBufferRaw (sz depth : Nat) (matrixData : List Nat)
    (rows cols channels : Int) : CRes (Bool × Option (List Nat) × Nat) :=
  serializeToBufferRawWith HeaderInformation.serializeToBuffer sz depth
    matrixData rows cols channels

/-- An `Eigen::Matrix<SCALAR, ROWS, COLS>` value: its runtime row and column
counts and the raw bytes of its contiguous element storage (`matrix.data()`,
`sizeof(SCALAR)` bytes per element). -/
structure EMatrix where
  rows : Nat
  cols : Nat
  data : List Nat
deriving DecidableEq, Repr

/-- A compile-time Eigen dimension: a fixed extent or `Eigen::Dynamic`. -/
inductive Dim where
  | fixed (n : Nat)
  | dynamic
deriving DecidableEq, Repr

/-- The matrix overload of `serializeToBuffer`: delegates to the raw-pointer
path with the matrix's data, rows, cols and `numChannels = 1`. -/
def serializeToBufferMatrix (sz depth : Nat) (matrix : EMatrix) :
    CRes (Bool × Option (List Nat) × Nat) :=
  serializeToBufferRaw sz depth matrix.data (matrix.rows : Int)
    (matrix.cols : Int) 1

/-- `CHECK_EQ(header.dim, static_cast<uint32_t>(DIM))`, performed only when
the compile-time dimension is not `Eigen::Dynamic`. -/
def dimMismatch (d : Dim) (v : Nat) : Bool :=
  match d with
  | .fixed n => v != n % 4294967296
  | .dynamic => false

/-- `deSerializeFromBuffer<SCALAR, ROWS, COLS>(buffer, size, matrix)` (the
Eigen matrix overload).  `sz` is `sizeof(SCALAR)`, `depth` is
`cv::DataType<SCALAR>::depth`, `R`/`C` are the template dimensions.  Returns
the returned boolean and the destination matrix's final state. -/
def deSerializeFromBufferMatrix (sz depth : Nat) (R C : Dim)
    (buffer : Option (List Nat)) (size : Nat) (matrix : EMatrix) :
    CRes (Bool × EMatrix) :=
  if size < 16 then .fatal "CHECK_GE(size, header.size())"
  else
    match buffer with
    | none => .ok (false, matrix)
    | some b =>
      match headerParseBytes b 0 with
      | none => .ok (false, matrix)
      | some header =>
        if dimMismatch R header.rows then .fatal "CHECK_EQ(header.rows, ROWS)"
        else if dimMismatch C header.cols then .fatal "CHECK_EQ(header.cols, COLS)"
        else if header.depth != depth then
          .fatal "CHECK_EQ(header.depth, cv::DataType<SCALAR>::depth)"
        else if header.channels != 1 then .fatal "CHECK_EQ(1u, header.channels)"
        else
          let newRows := match R with
            | .dynamic => header.rows
            | .fixed _ => matrix.rows
          let newCols := match C with
            | .dynamic => header.cols
            | .fixed _ => matrix.cols
          -- Eigen resize: a no-op when the shape is unchanged, otherwise the
          -- storage is reallocated with unspecified contents (modelled as 0).
          let d1 := if newRows = matrix.rows ∧ newCols = matrix.cols then
              matrix.data
            else List.replicate (sz * newRows * newCols) 0
          let matrixSize := sz * newRows * newCols % 18446744073709551616
          let totalSize := (matrixSize + 16) % 18446744073709551616
          if size ≠ totalSize then .fatal "CHECK_EQ(size, total_size)"
          else
            -- memcpy(matrix->data(), buffer + header.size(), matrix_size)
            let payload := (b.drop 16).take matrixSize
            .ok (true, ⟨newRows, newCols, payload ++ d1.drop matrixSize⟩)

/-- `deSerializeFromString<SCALAR, ROWS, COLS>(string, matrix)`: delegates to
`deSerializeFromBuffer` on the string's data pointer and size. -/
def deSerializeFromStringMatrix (sz depth : Nat) (R C : Dim)
    (string : List Nat) (matrix : EMatrix) : CRes (Bool × EMatrix) :=
  deSerializeFromBufferMatrix sz depth R C (some string) string.length matrix

/-- `serializeToString<SCALAR>(value, string)` (scalar text overload): streams
the value through `std::stringstream`, which for integral scalars prints the
decimal representation, and swaps it into the destination string. -/
def serializeToStringScalar (value : Int) : CRes (Bool × String) :=
  .ok (true, toString value)

/-- Model of `std::stoll`: skip leading whitespace, an optional sign, then the
longest run of decimal digits; `none` models the `std::invalid_argument`
exception thrown when no digits are found (out-of-range inputs are not
modelled). -/
def stollModel (s : String) : Option Int :=
  let cs := s.data.dropWhile Char.isWhitespace
  let signAndRest : Bool × List Char :=
    match cs with
    | '-' :: r => (true, r)
    | '+' :: r => (false, r)
    | r => (false, r)
  let ds := signAndRest.2.takeWhile Char.isDigit
  if ds.isEmpty then none
  else
    let n : Nat := ds.foldl (fun acc c => acc * 10 + (c.toNat - 48)) 0
    some (if signAndRest.1 then -(n : Int) else (n : Int))

/-- `static_cast<SCALAR>` of a signed 64-bit value onto a `w`-bit signed
integral `SCALAR` (two's-complement wrap). -/
def narrowToSigned (w : Nat) (i : Int) : Int :=
  (i + 2 ^ (w - 1)) % 2 ^ w - 2 ^ (w - 1)

/-- `deSerializeFromString<SCALAR>(string, value)` (scalar text overload):
`CHECK(!string.empty())` then `*value = static_cast<SCALAR>(std::stoll(string))`.
`w` is the bit width of `SCALAR`.  An uncaught `std::stoll` exception is
modelled as a fatal outcome (it never produces a normal return). -/
def deSerializeFromStringScalar (w : Nat) (string : String) (value : Int) :
    CRes (Bool × Int) :=
  if string.isEmpty then .fatal "CHECK(!string.empty())"
  else
    match stollModel string with
    | none => .fatal "std::stoll: std::invalid_argument"
    | some i => .ok (true, narrowToSigned w i)

/-- `serializeToBuffer<SCALAR>(value, buffer, size)` (scalar raw overload):
`CHECK_EQ(sizeof(SCALAR), *size)`, then allocates `*size` bytes and memcpys
the value's bytes into them.  `valueBytes` is the in-memory byte image of
`value` (`sizeofScalar` bytes). -/
def serializeToBufferScalar (sizeofScalar : Nat) (valueBytes : List Nat)
    (sizeIn : Nat) : CRes (Bool × Option (List Nat) × Nat) :=
  if sizeofScalar ≠ sizeIn then .fatal "CHECK_EQ(sizeof(SCALAR), *size)"
  else .ok (true, some (valueBytes.take sizeIn), sizeIn)

/-- `deSerializeFromBuffer<SCALAR>(buffer, size, value)` (scalar raw
overload).  After `CHECK_EQ(size, sizeof(SCALAR))`, the source executes
`memcpy(&value, buffer, size)`: since `value` is the `SCALAR*` parameter
itself, the bytes land in the local pointer variable, and the pointed-to
scalar `*value` (here `destBytes`) is never written.  The destination state
is therefore returned unchanged. -/
def deSerializeFromBufferScalar (sizeofScalar : Nat) (buffer : List Nat)
    (size : Nat) (destBytes : List Nat) : CRes (Bool × List Nat) :=
  if size ≠ sizeofScalar then .fatal "CHECK_EQ(size, sizeof(SCALAR))"
  else .ok (true, destBytes)

/-- Compatibility of a runtime extent with a compile-time Eigen dimension:
a fixed dimension forces the runtime extent. -/
def dimOk (d : Dim) (n : Nat) : Prop :=
  match d with
  | .fixed r => n = r
  | .dynamic => True

end internal

end aslam

namespace aslam

namespace internal

/-! ### Helper lemmas -/

theorem headerBytes_length (h : HeaderInformation) : (headerBytes h).length = 16 := rfl

theorem toU32_ofNat (n : Nat) (h : n < 4294967296) : toU32 (n : Int) = n := by
  unfold toU32; omega

theorem toSizeT_ofNat (n : Nat) (h : n < 18446744073709551616) :
    toSizeT (n : Int) = n := by
  unfold toSizeT; omega

theorem headerParse_roundtrip (h : HeaderInformation) (rest : List Nat)
    (hr : h.rows < 4294967296) (hc : h.cols < 4294967296)
    (hd : h.depth < 4294967296) (hch : h.channels < 4294967296) :
    headerParseBytes (headerBytes h ++ rest) 0 = some h := by
  obtain ⟨rows, cols, depth, channels⟩ := h
  simp only at hr hc hd hch
  simp only [headerParseBytes, headerBytes, u32Bytes, List.cons_append,
    List.nil_append, List.drop_zero, Option.some.injEq,
    HeaderInformation.mk.injEq]
  refine ⟨?_, ?_, ?_, ?_⟩ <;> omega

theorem writeBytes_replicate_zero (n : Nat) (src : List Nat) :
    writeBytes (List.replicate n 0) 0 src =
      src ++ List.replicate (n - src.length) 0 := by
  simp [writeBytes, List.drop_replicate]

theorem writeBytes_at_header (hb tail src : List Nat) (h16 : hb.length = 16)
    (hlen : src.length = tail.length) :
    writeBytes (hb ++ tail) 16 src = hb ++ src := by
  unfold writeBytes
  rw [← h16, List.take_left]
  have hdrop : (hb ++ tail).drop (hb.length + src.length) = [] := by
    apply List.drop_eq_nil_of_le
    simp [hlen]
  rw [hdrop, List.append_nil]

theorem serializeToBufferMatrix_eq (sz depth : Nat) (M : EMatrix)
    (hr : M.rows < 4294967296) (hc : M.cols < 4294967296)
    (hdata : M.data.length = sz * M.rows * M.cols)
    (hov : sz * M.rows * M.cols + 16 < 18446744073709551616) :
    serializeToBufferMatrix sz depth M =
      .ok (true, some (headerBytes ⟨M.rows, M.cols, depth, 1⟩ ++ M.data),
        M.data.length + 16) := by
  have h1s : toSizeT 1 = 1 := by unfold toSizeT; omega
  have hmk : makeHeaderInformation depth (M.rows : Int) (M.cols : Int) 1 =
      ⟨M.rows, M.cols, depth, 1⟩ := by
    unfold makeHeaderInformation
    rw [toU32_ofNat _ hr, toU32_ofNat _ hc]
    have : toU32 1 = 1 := by unfold toU32; omega
    rw [this]
  have h1 : rawMatrixSize sz (M.rows : Int) (M.cols : Int) 1 = M.data.length := by
    unfold rawMatrixSize
    rw [toSizeT_ofNat _ (by omega), toSizeT_ofNat _ (by omega), h1s, hdata]
    omega
  have h2 : rawTotalSize sz (M.rows : Int) (M.cols : Int) 1 = M.data.length + 16 := by
    unfold rawTotalSize
    rw [h1, hdata]
    omega
  unfold serializeToBufferMatrix serializeToBufferRaw serializeToBufferRawWith
  simp only [hmk, h1, h2, HeaderInformation.serializeToBuffer, Option.map,
    writeBytes_replicate_zero, Nat.add_sub_cancel, headerBytes_length]
  rw [writeBytes_at_header _ _ _ (headerBytes_length _) (by simp),
    List.take_length]

theorem dimOk_no_mismatch (d : Dim) (n : Nat) (h : dimOk d n)
    (hn : n < 4294967296) : dimMismatch d n = false := by
  cases d with
  | fixed r =>
    unfold dimOk at h
    unfold dimMismatch
    simp only [bne_eq_false_iff_eq]
    omega
  | dynamic => rfl

end internal

end aslam

namespace aslam

namespace internal

theorem deSerializeFromBufferMatrix_resolved (sz depth : Nat) (R C : Dim)
    (M m0 : EMatrix) (rest : List Nat) (size : Nat)
    (hr : M.rows < 4294967296) (hc : M.cols < 4294967296)
    (hd : depth < 4294967296)
    (hdata : M.data.length = sz * M.rows * M.cols)
    (hov : sz * M.rows * M.cols + 16 < 18446744073709551616)
    (hR : dimOk R M.rows) (hC : dimOk C M.cols)
    (hmR : dimOk R m0.rows) (hmC : dimOk C m0.cols)
    (hm0 : m0.data.length = sz * m0.rows * m0.cols)
    (hsz : 16 ≤ size) :
    deSerializeFromBufferMatrix sz depth R C
      (some (headerBytes ⟨M.rows, M.cols, depth, 1⟩ ++ rest)) size m0 =
      if size = M.data.length + 16 then
        .ok (true, ⟨M.rows, M.cols, rest.take M.data.length⟩)
      else .fatal "CHECK_EQ(size, total_size)" := by
  have hb16 := headerBytes_length (⟨M.rows, M.cols, depth, 1⟩ : HeaderInformation)
  have hparse := headerParse_roundtrip ⟨M.rows, M.cols, depth, 1⟩ rest hr hc hd
    (by norm_num)
  have hdrop16 : (headerBytes ⟨M.rows, M.cols, depth, 1⟩ ++ rest).drop 16 =
      rest := by
    rw [← hb16]
    exact List.drop_left _ _
  have hmm1 : dimMismatch R M.rows = false := dimOk_no_mismatch R M.rows hR hr
  have hmm2 : dimMismatch C M.cols = false := dimOk_no_mismatch C M.cols hC hc
  have hmod : sz * M.rows * M.cols % 18446744073709551616 = M.data.length := by
    omega
  have htot : (M.data.length + 16) % 18446744073709551616 = M.data.length + 16 := by
    omega
  unfold deSerializeFromBufferMatrix
  rw [if_neg (by omega)]
  simp only [hparse, hmm1, hmm2, Bool.false_eq_true, if_false, bne_self_eq_false]
  cases R with
  | fixed r =>
    cases C with
    | fixed c =>
      simp only [dimOk] at hR hC hmR hmC
      dsimp only
      have e1 : m0.rows = M.rows := by omega
      have e2 : m0.cols = M.cols := by omega
      rw [e1, e2] at hm0 ⊢
      rw [hmod, htot, hdrop16]
      by_cases hs : size = M.data.length + 16
      · rw [if_neg (show ¬(size ≠ M.data.length + 16) from fun hk => hk hs),
          if_pos hs, ← hdata]
        split
        next hcond =>
          rw [List.drop_eq_nil_of_le (by omega), List.append_nil]
        next hcond =>
          simp [List.drop_replicate]
      · rw [if_pos hs, if_neg hs]
    | dynamic =>
      simp only [dimOk] at hR hmR
      dsimp only
      have e1 : m0.rows = M.rows := by omega
      rw [e1] at hm0 ⊢
      rw [hmod, htot, hdrop16]
      by_cases hs : size = M.data.length + 16
      · rw [if_neg (show ¬(size ≠ M.data.length + 16) from fun hk => hk hs),
          if_pos hs, ← hdata]
        split
        next hcond =>
          rw [← hcond.2] at hm0
          rw [List.drop_eq_nil_of_le (by omega), List.append_nil]
        next hcond =>
          simp [List.drop_replicate]
      · rw [if_pos hs, if_neg hs]
  | dynamic =>
    cases C with
    | fixed c =>
      simp only [dimOk] at hC hmC
      dsimp only
      have e2 : m0.cols = M.cols := by omega
      rw [e2] at hm0 ⊢
      rw [hmod, htot, hdrop16]
      by_cases hs : size = M.data.length + 16
      · rw [if_neg (show ¬(size ≠ M.data.length + 16) from fun hk => hk hs),
          if_pos hs, ← hdata]
        split
        next hcond =>
          rw [← hcond.1] at hm0
          rw [List.drop_eq_nil_of_le (by omega), List.append_nil]
        next hcond =>
          simp [List.drop_replicate]
      · rw [if_pos hs, if_neg hs]
    | dynamic =>
      dsimp only
      rw [hmod, htot, hdrop16]
      by_cases hs : size = M.data.length + 16
      · rw [if_neg (show ¬(size ≠ M.data.length + 16) from fun hk => hk hs),
          if_pos hs, ← hdata]
        split
        next hcond =>
          rw [← hcond.1, ← hcond.2] at hm0
          rw [List.drop_eq_nil_of_le (by omega), List.append_nil]
        next hcond =>
          simp [List.drop_replicate]
      · rw [if_pos hs, if_neg hs]

end internal

end aslam

namespace aslam

namespace internal

/-! ### Claims -/

/-- C2: evaluating the scalar raw codec at the 4-byte value 42 shows the
decode bug: `deSerializeFromBuffer` executes `memcpy(&value, buffer, size)`
into the local pointer variable, so the destination scalar (initialized to 0)
is left at 0 rather than receiving 42. -/
theorem C2_scalar_raw_decode_bug :
    serializeToBufferScalar 4 [42, 0, 0, 0] 4 =
      .ok (true, some [42, 0, 0, 0], 4) ∧
    deSerializeFromBufferScalar 4 [42, 0, 0, 0] 4 [0, 0, 0, 0] =
      .ok (true, [0, 0, 0, 0]) ∧
    ([0, 0, 0, 0] : List Nat) ≠ [42, 0, 0, 0] := by
  decide

/-- C4: in the owned-buffer encode direction, if writing the header into the
freshly allocated buffer fails, the operation returns false with the caller's
buffer output parameter set to null (the allocation itself is released, which
has no further observable effect); `*totalSize` keeps the computed size. -/
theorem C4_header_write_failure_cleanup
    (hw : HeaderInformation → Option (List Nat) → Nat → Option (List Nat))
    (sz depth : Nat) (matrixData : List Nat) (rows cols channels : Int)
    (hfail : hw (makeHeaderInformation depth rows cols channels)
        (some (List.replicate (rawTotalSize sz rows cols channels) 0)) 0 =
        none) :
    serializeToBufferRawWith hw sz depth matrixData rows cols channels =
      .ok (false, none, rawTotalSize sz rows cols channels) := by
  unfold serializeToBufferRawWith
  simp only [hfail]

/-- Witness for C4 with an always-failing header writer. -/
theorem C4_header_write_failure_witness :
    serializeToBufferRawWith (fun _ _ _ => none) 4 0 [1, 2, 3, 4] 1 1 1 =
      .ok (false, none, 20) :=
  C4_header_write_failure_cleanup (fun _ _ _ => none) 4 0 [1, 2, 3, 4] 1 1 1 rfl

/-- C5: when decoding into a matrix destination, a mismatch between a
statically fixed destination dimension and the decoded header dimension, a
depth-tag mismatch, or a channel count different from 1, each makes the decode
end in a fatal check, not in an ordinary false return. -/
theorem C5_decode_validation_fatal (sz depth : Nat) (R C : Dim) (b : List Nat)
    (size : Nat) (m : EMatrix) (header : HeaderInformation)
    (hsz : 16 ≤ size)
    (hparse : headerParseBytes b 0 = some header)
    (hviol : (∃ r, R = .fixed r ∧ header.rows ≠ r % 4294967296) ∨
             (∃ c, C = .fixed c ∧ header.cols ≠ c % 4294967296) ∨
             header.depth ≠ depth ∨ header.channels ≠ 1) :
    (deSerializeFromBufferMatrix sz depth R C (some b) size m).isFatal =
      true := by
  unfold deSerializeFromBufferMatrix
  rw [if_neg (by omega)]
  simp only [hparse]
  by_cases h1 : dimMismatch R header.rows = true
  · simp [h1, CRes.isFatal]
  · rw [Bool.not_eq_true] at h1
    by_cases h2 : dimMismatch C header.cols = true
    · simp [h1, h2, CRes.isFatal]
    · rw [Bool.not_eq_true] at h2
      by_cases h3 : (header.depth != depth) = true
      · simp [h1, h2, h3, CRes.isFatal]
      · rw [Bool.not_eq_true] at h3
        by_cases h4 : (header.channels != 1) = true
        · simp [h1, h2, h3, h4, CRes.isFatal]
        · exfalso
          rw [Bool.not_eq_true] at h4
          rw [bne_eq_false_iff_eq] at h3 h4
          rcases hviol with ⟨r, hRr, hne⟩ | ⟨c, hCc, hne⟩ | hne | hne
          · subst hRr
            unfold dimMismatch at h1
            rw [bne_eq_false_iff_eq] at h1
            exact hne h1
          · subst hCc
            unfold dimMismatch at h2
            rw [bne_eq_false_iff_eq] at h2
            exact hne h2
          · exact hne h3
          · exact hne h4

/-- Witness for C5: a header declaring 3 rows decoded into a destination
statically fixed at 4 rows is fatal. -/
theorem C5_decode_validation_witness :
    (deSerializeFromBufferMatrix 4 5 (.fixed 4) .dynamic
      (some (headerBytes ⟨3, 0, 5, 1⟩)) 16 ⟨4, 0, []⟩).isFatal = true :=
  C5_decode_validation_fatal 4 5 (.fixed 4) .dynamic (headerBytes ⟨3, 0, 5, 1⟩)
    16 ⟨4, 0, []⟩ ⟨3, 0, 5, 1⟩ (by norm_num) (by decide)
    (Or.inl ⟨4, rfl, by decide⟩)

/-- C6: matrix decode validates the input length twice and fatally: any input
shorter than the 16-byte header is a fatal length check, and a valid encoded
payload truncated by one byte fails the exact total-size equality check
fatally. -/
theorem C6_length_validation (sz depth : Nat) (R C : Dim) (M m0 : EMatrix)
    (hr : M.rows < 4294967296) (hc : M.cols < 4294967296)
    (hd : depth < 4294967296)
    (hdata : M.data.length = sz * M.rows * M.cols)
    (hov : sz * M.rows * M.cols + 16 < 18446744073709551616)
    (hR : dimOk R M.rows) (hC : dimOk C M.cols)
    (hmR : dimOk R m0.rows) (hmC : dimOk C m0.cols)
    (hm0 : m0.data.length = sz * m0.rows * m0.cols)
    (hne : 1 ≤ M.data.length) :
    (∀ buffer size m, size < 16 →
        deSerializeFromBufferMatrix sz depth R C buffer size m =
          .fatal "CHECK_GE(size, header.size())") ∧
    (∀ buf total,
        serializeToBufferMatrix sz depth M = .ok (true, some buf, total) →
        deSerializeFromBufferMatrix sz depth R C (some buf.dropLast)
          (total - 1) m0 = .fatal "CHECK_EQ(size, total_size)") := by
  constructor
  · intro buffer size m hlt
    unfold deSerializeFromBufferMatrix
    rw [if_pos hlt]
  · intro buf total henc
    rw [serializeToBufferMatrix_eq sz depth M hr hc hdata hov] at henc
    simp only [CRes.ok.injEq, Prod.mk.injEq, Option.some.injEq, true_and]
      at henc
    obtain ⟨h1, h2⟩ := henc
    subst h1
    subst h2
    have hdl : (headerBytes ⟨M.rows, M.cols, depth, 1⟩ ++ M.data).dropLast =
        headerBytes ⟨M.rows, M.cols, depth, 1⟩ ++ M.data.dropLast := by
      cases hMd : M.data with
      | nil =>
        rw [hMd] at hne
        simp at hne
      | cons x xs =>
        rw [List.dropLast_append_cons]
    rw [hdl]
    rw [deSerializeFromBufferMatrix_resolved sz depth R C M m0 M.data.dropLast
      (M.data.length + 16 - 1) hr hc hd hdata hov hR hC hmR hmC hm0 (by omega)]
    rw [if_neg (by omega)]

/-- Witness for C6: a 3-byte input is fatally short, and the 22-byte encoding
of a 2x3 byte matrix truncated to 21 bytes fails the total-size check. -/
theorem C6_length_validation_witness :
    deSerializeFromBufferMatrix 1 0 .dynamic .dynamic (some [1, 2, 3]) 3
      ⟨0, 0, []⟩ = .fatal "CHECK_GE(size, header.size())" ∧
    deSerializeFromBufferMatrix 1 0 .dynamic .dynamic
      (some ((headerBytes ⟨2, 3, 0, 1⟩ ++ [9, 9, 9, 9, 9, 9]).dropLast)) 21
      ⟨0, 0, []⟩ = .fatal "CHECK_EQ(size, total_size)" :=
  ⟨(C6_length_validation 1 0 .dynamic .dynamic ⟨2, 3, [9, 9, 9, 9, 9, 9]⟩
      ⟨0, 0, []⟩ (by norm_num) (by norm_num) (by norm_num) (by decide)
      (by norm_num) (by trivial) (by trivial) (by trivial) (by trivial)
      (by decide) (by decide)).1 (some [1, 2, 3]) 3 ⟨0, 0, []⟩ (by norm_num),
   (C6_length_validation 1 0 .dynamic .dynamic ⟨2, 3, [9, 9, 9, 9, 9, 9]⟩
      ⟨0, 0, []⟩ (by norm_num) (by norm_num) (by norm_num) (by decide)
      (by norm_num) (by trivial) (by trivial) (by trivial) (by trivial)
      (by decide) (by decide)).2 (headerBytes ⟨2, 3, 0, 1⟩ ++ [9, 9, 9, 9, 9, 9])
      22 (by decide)⟩

/-- C7: on a successful matrix decode, a dynamic destination dimension ends up
equal to the decoded header's corresponding dimension, while a statically
fixed dimension keeps the destination's prior extent (only dynamic dimensions
are resized). -/
theorem C7_resize_semantics (sz depth : Nat) (R C : Dim) (b : List Nat)
    (size : Nat) (m m' : EMatrix) (header : HeaderInformation)
    (hparse : headerParseBytes b 0 = some header)
    (hok : deSerializeFromBufferMatrix sz depth R C (some b) size m =
      .ok (true, m')) :
    ((R = .dynamic → m'.rows = header.rows) ∧
      (∀ r, R = .fixed r → m'.rows = m.rows)) ∧
    ((C = .dynamic → m'.cols = header.cols) ∧
      (∀ c, C = .fixed c → m'.cols = m.cols)) := by
  unfold deSerializeFromBufferMatrix at hok
  split at hok
  · exact absurd hok (by simp)
  · dsimp only at hok
    rw [hparse] at hok
    dsimp only at hok
    split at hok
    · exact absurd hok (by simp)
    · split at hok
      · exact absurd hok (by simp)
      · split at hok
        · exact absurd hok (by simp)
        · split at hok
          · exact absurd hok (by simp)
          · split at hok
            · exact absurd hok (by simp)
            · simp only [CRes.ok.injEq, Prod.mk.injEq, true_and] at hok
              subst hok
              refine ⟨⟨?_, ?_⟩, ?_, ?_⟩
              · intro hRd
                subst hRd
                rfl
              · intro r hRf
                subst hRf
                rfl
              · intro hCd
                subst hCd
                rfl
              · intro c hCf
                subst hCf
                rfl

/-- Witness for C7: a header declaring rows=5, cols=2 decoded into a fully
dynamic destination yields a 5x2 result. -/
theorem C7_resize_semantics_witness :
    ((Dim.dynamic = Dim.dynamic →
        (EMatrix.mk 5 2 (List.replicate 10 7)).rows =
          (HeaderInformation.mk 5 2 0 1).rows) ∧
      (∀ r, Dim.dynamic = Dim.fixed r →
        (EMatrix.mk 5 2 (List.replicate 10 7)).rows =
          (EMatrix.mk 0 0 []).rows)) ∧
    ((Dim.dynamic = Dim.dynamic →
        (EMatrix.mk 5 2 (List.replicate 10 7)).cols =
          (HeaderInformation.mk 5 2 0 1).cols) ∧
      (∀ c, Dim.dynamic = Dim.fixed c →
        (EMatrix.mk 5 2 (List.replicate 10 7)).cols =
          (EMatrix.mk 0 0 []).cols)) :=
  C7_resize_semantics 1 0 .dynamic .dynamic
    (headerBytes ⟨5, 2, 0, 1⟩ ++ List.replicate 10 7) 26 ⟨0, 0, []⟩
    ⟨5, 2, List.replicate 10 7⟩ ⟨5, 2, 0, 1⟩ (by decide) (by decide)

/-- C8: the scalar text codec prints the decimal representation (3 encodes to
"3"), decodes by a 64-bit signed parse narrowed to the scalar's width
(decoding "3" yields 3 for any width of at least 3 bits), and decoding the
empty string is a fatal check. -/
theorem C8_scalar_text_codec (w : Nat) (v0 : Int) (hw3 : 3 ≤ w) :
    serializeToStringScalar 3 = .ok (true, "3") ∧
    deSerializeFromStringScalar w "3" v0 = .ok (true, 3) ∧
    deSerializeFromStringScalar w "" v0 =
      .fatal "CHECK(!string.empty())" := by
  refine ⟨rfl, ?_, rfl⟩
  unfold deSerializeFromStringScalar
  rw [if_neg (by decide)]
  have hstoll : stollModel "3" = some 3 := by decide
  rw [hstoll]
  have hpow : (4 : Int) ≤ 2 ^ (w - 1) := by
    calc (4 : Int) = 2 ^ 2 := by norm_num
    _ ≤ 2 ^ (w - 1) := by
      apply pow_le_pow_right₀ (by norm_num) (by omega)
  have hw' : w - 1 + 1 = w := by omega
  have hpow2 := pow_succ (2 : Int) (w - 1)
  rw [hw'] at hpow2
  have hmod : ((3 : Int) + 2 ^ (w - 1)) % 2 ^ w = 3 + 2 ^ (w - 1) :=
    Int.emod_eq_of_lt (by omega) (by omega)
  dsimp only
  unfold narrowToSigned
  rw [hmod]
  norm_num

/-- Witness for C8 at the 32-bit width. -/
theorem C8_scalar_text_codec_witness :
    serializeToStringScalar 3 = .ok (true, "3") ∧
    deSerializeFromStringScalar 32 "3" 0 = .ok (true, 3) ∧
    deSerializeFromStringScalar 32 "" 0 =
      .fatal "CHECK(!string.empty())" :=
  C8_scalar_text_codec 32 0 (by norm_num)

/-- C9: the matrix `deSerializeFromString` entry point is extensionally equal
to `deSerializeFromBuffer` applied to the string's bytes and length: same
return value, same destination state, same fatal-check behavior. -/
theorem C9_deSerializeFromString_eq_fromBuffer (sz depth : Nat) (R C : Dim)
    (string : List Nat) (matrix : EMatrix) :
    deSerializeFromStringMatrix sz depth R C string matrix =
      deSerializeFromBufferMatrix sz depth R C (some string) string.length
        matrix := rfl

/-- C10: when header parsing fails during a matrix decode, the function
returns false with the destination matrix completely unchanged: no resize and
no payload copy happen before the failure return. -/
theorem C10_header_failure_preserves_matrix (sz depth : Nat) (R C : Dim)
    (buffer : Option (List Nat)) (size : Nat) (matrix : EMatrix)
    (hsz : 16 ≤ size)
    (hfail : HeaderInformation.deSerializeFromBuffer buffer 0 = none) :
    deSerializeFromBufferMatrix sz depth R C buffer size matrix =
      .ok (false, matrix) := by
  unfold deSerializeFromBufferMatrix
  rw [if_neg (by omega)]
  cases buffer with
  | none => rfl
  | some b =>
    unfold HeaderInformation.deSerializeFromBuffer at hfail
    dsimp only [Option.bind] at hfail
    simp only [hfail]

/-- Witness for C10 with a null input buffer. -/
theorem C10_header_failure_witness :
    deSerializeFromBufferMatrix 1 0 .dynamic .dynamic none 16 ⟨1, 2, [3, 4]⟩ =
      .ok (false, ⟨1, 2, [3, 4]⟩) :=
  C10_header_failure_preserves_matrix 1 0 .dynamic .dynamic none 16
    ⟨1, 2, [3, 4]⟩ (by norm_num) rfl

end internal

end aslam
